import Mathlib

/-!
Verification of the Portfolio-Tracker repository's core logic.

The definitions below are a shallow embedding of the TypeScript source:
  * the data model comes from src/types.ts;
  * the parsing layer (delimited key:::value responses, the JS parseFloat
    coercion, the getStr/getNum accessors and the price-history parser)
    comes from src/services/geminiService.ts, fetchFullStockData
    (lines 45-105), fetchStockDetailsForUpdate (136-183) and
    fetchTickerDetails (186-243), plus the getNumericValue coercion of the
    earlier service variant (src/unnamed/part_002, lines 33-40);
  * the state-transforming operations (refreshAssetDetails' update merge,
    checkAndRefreshDetails' staleness filter, addAsset, addCash and
    calculateSummary) come from the App component in the same file
    (src/services/geminiService.ts lines 367-678).

Modelling conventions: JavaScript numbers are rationals (ℚ), timestamps
are integers (milliseconds since the epoch, ℤ), nullable values are
Option, and JS strings are lists of characters (JSString := List Char) so
that every operation evaluates by kernel reduction.  JS truthiness is
made explicit where the source relies on it: the empty string, the number
0 and null/undefined are falsy.  The JS builtins used by the source
(String.prototype.split/trim/toLowerCase/toUpperCase/replace and the
global parseFloat) are reimplemented below on JSString; parseFloat is
modelled on decimal literals with optional sign, fraction and exponent
(the Infinity literal is outside the ℚ value domain and not modelled).
-/

namespace PortfolioTracker

/-- JS strings, modelled as their character lists. -/
abbrev JSString := List Char

/-- Conversion from Lean string literals to the JSString model. -/
def str (s : String) : JSString := s.toList

/-- The whitespace class skipped by JS trim and parseFloat (ASCII
subset; the source never feeds non-ASCII whitespace). -/
def jsIsWhitespace (c : Char) : Bool :=
  c = ' ' || c = '\t' || c = '\n' || c = '\r'

/-- One step of ASCII lower-casing, as String.prototype.toLowerCase acts
on the ASCII keys and sentinel values used by the source. -/
def jsToLowerChar (c : Char) : Char :=
  if 'A' ≤ c ∧ c ≤ 'Z' then Char.ofNat (c.toNat + 32) else c

/-- One step of ASCII upper-casing (String.prototype.toUpperCase). -/
def jsToUpperChar (c : Char) : Char :=
  if 'a' ≤ c ∧ c ≤ 'z' then Char.ofNat (c.toNat - 32) else c

/-- String.prototype.toLowerCase on the JSString model. -/
def jsToLower (s : JSString) : JSString := s.map jsToLowerChar

/-- String.prototype.toUpperCase on the JSString model. -/
def jsToUpper (s : JSString) : JSString := s.map jsToUpperChar

/-- String.prototype.trim on the JSString model. -/
def jsTrim (s : JSString) : JSString :=
  ((s.dropWhile jsIsWhitespace).reverse.dropWhile jsIsWhitespace).reverse

/-- Whether the pattern (first argument) is a prefix of the second. -/
def listStartsWith : List Char → List Char → Bool
  | [], _ => true
  | _ :: _, [] => false
  | a :: as, b :: bs => a = b && listStartsWith as bs

/-- Worker for jsSplitOn: walks the string structurally; `skip` counts
characters still to be consumed as part of an already-matched separator,
`cur` holds the current token reversed. -/
def jsSplitOnAux (sep : List Char) : List Char → ℕ → List Char → List JSString
  | [], _, cur => [cur.reverse]
  | _ :: rest, Nat.succ k, cur => jsSplitOnAux sep rest k cur
  | c :: rest, 0, cur =>
    if sep ≠ [] ∧ listStartsWith sep (c :: rest) then
      cur.reverse :: jsSplitOnAux sep rest (sep.length - 1) []
    else
      jsSplitOnAux sep rest 0 (c :: cur)

/-- String.prototype.split with a non-empty plain-string separator:
greedy leftmost non-overlapping matches, empty tokens preserved. -/
def jsSplitOn (sep : JSString) (s : JSString) : List JSString :=
  jsSplitOnAux sep s 0 []

/-- `val.replace(/,/g, '')` — drop every comma. -/
def stripCommas (s : JSString) : JSString := s.filter (fun c => c != ',')

/-- Value of a digit run, most significant first. -/
def digitsToNat (ds : List Char) : ℕ :=
  ds.foldl (fun n c => 10 * n + (c.toNat - '0'.toNat)) 0

/-- The syntactic components of a JS decimal float literal: sign,
integer-part value, fraction-part value and length, exponent. -/
structure FloatParts where
  negative : Bool
  intVal : ℕ
  fracVal : ℕ
  fracLen : ℕ
  exp : ℤ
deriving DecidableEq, Repr

/-- The scanning stage of the global JS parseFloat: skip leading
whitespace, optional sign, integer digits, optional fraction, optional
exponent; none (JS NaN) when no digit is found, and trailing
non-numeric characters are ignored. -/
def parseFloatParts (s : JSString) : Option FloatParts :=
  let cs := s.dropWhile jsIsWhitespace
  let signAndRest : Bool × List Char :=
    match cs with
    | '-' :: rest => (true, rest)
    | '+' :: rest => (false, rest)
    | _ => (false, cs)
  let cs1 := signAndRest.2
  let intDigits := cs1.takeWhile Char.isDigit
  let cs2 := cs1.drop intDigits.length
  let fracAndRest : List Char × List Char :=
    match cs2 with
    | '.' :: rest => (rest.takeWhile Char.isDigit, rest.drop (rest.takeWhile Char.isDigit).length)
    | _ => ([], cs2)
  let fracDigits := fracAndRest.1
  let cs3 := fracAndRest.2
  if intDigits.isEmpty && fracDigits.isEmpty then none
  else
    let e : ℤ :=
      match cs3 with
      | c :: rest =>
        if c = 'e' ∨ c = 'E' then
          let esignAndRest : ℤ × List Char :=
            match rest with
            | '-' :: r => (-1, r)
            | '+' :: r => (1, r)
            | _ => (1, rest)
          let eDigits := esignAndRest.2.takeWhile Char.isDigit
          if eDigits.isEmpty then 0 else esignAndRest.1 * (digitsToNat eDigits : ℤ)
        else 0
      | [] => 0
    some
      { negative := signAndRest.1
        intVal := digitsToNat intDigits
        fracVal := digitsToNat fracDigits
        fracLen := fracDigits.length
        exp := e }

/-- The numeric value of a scanned float literal. -/
def floatPartsVal (p : FloatParts) : ℚ :=
  (if p.negative then -1 else 1) *
    ((p.intVal : ℚ) + (p.fracVal : ℚ) / (10 : ℚ) ^ p.fracLen) * (10 : ℚ) ^ p.exp

/-- The global JS parseFloat on the JSString model, as an Option: none
stands for NaN. -/
def jsParseFloat (s : JSString) : Option ℚ :=
  (parseFloatParts s).map floatPartsVal

/-- The key → value store built by the parsing routines (a JS Map:
insertion order preserved, set overwrites in place). -/
abbrev KVMap := List (JSString × JSString)

/-- JS Map.prototype.set: overwrite an existing key in place, else
append. -/
def mapSet (m : KVMap) (k v : JSString) : KVMap :=
  if m.any (fun p => p.1 == k) then
    m.map (fun p => if p.1 == k then (k, v) else p)
  else m ++ [(k, v)]

/-- JS Map.prototype.get, as an Option. -/
def mapGet (m : KVMap) (k : JSString) : Option JSString :=
  (m.find? (fun p => p.1 == k)).map Prod.snd

/-- The key-value map built by fetchFullStockData and
fetchStockDetailsForUpdate (geminiService.ts lines 51-57 and 143-149):
split the text on the pair separator, keep only pairs that split into
exactly two parts on the key separator, keys trimmed and lower-cased,
values trimmed. -/
def buildKVMapLower (text : JSString) : KVMap :=
  (jsSplitOn (str "|||") text).foldl (fun m pair =>
    let parts := jsSplitOn (str ":::") pair
    if parts.length = 2 then
      mapSet m (jsToLower (jsTrim (parts.headD []))) (jsTrim (parts.getD 1 []))
    else m) []

/-- The key-value map built by fetchTickerDetails (geminiService.ts
lines 199-205): identical except that keys are NOT lower-cased. -/
def buildKVMap (text : JSString) : KVMap :=
  (jsSplitOn (str "|||") text).foldl (fun m pair =>
    let parts := jsSplitOn (str ":::") pair
    if parts.length = 2 then
      mapSet m (jsTrim (parts.headD [])) (jsTrim (parts.getD 1 []))
    else m) []

/-- The getStr accessor shared verbatim by fetchFullStockData (line 59),
fetchStockDetailsForUpdate (line 151) and fetchTickerDetails (line 207):
null when the key is missing, the value is empty (JS falsy), or the
value lower-cases to the sentinel n/a. -/
def getStr (data : KVMap) (key : JSString) : Option JSString :=
  match mapGet data key with
  | none => none
  | some val => if val = [] ∨ jsToLower val = str "n/a" then none else some val

/-- The getNum accessor of fetchFullStockData (lines 60-65) and
fetchStockDetailsForUpdate (lines 152-157): null on missing/empty/n-a
values, otherwise parseFloat of the value with commas stripped, null
when that parse fails (NaN). -/
def getNum (data : KVMap) (key : JSString) : Option ℚ :=
  match mapGet data key with
  | none => none
  | some val =>
    if val = [] ∨ jsToLower val = str "n/a" then none
    else jsParseFloat (stripCommas val)

/-- The getNum accessor of fetchTickerDetails (lines 208-213): the same
except that commas are NOT stripped before parseFloat. -/
def tickerGetNum (data : KVMap) (key : JSString) : Option ℚ :=
  match mapGet data key with
  | none => none
  | some val =>
    if val = [] ∨ jsToLower val = str "n/a" then none
    else jsParseFloat val

/-- Case-insensitive prefix test (the effect of the regex flag i on the
literal part of part_002's pattern). -/
def listStartsWithCI : List Char → List Char → Bool
  | [], _ => true
  | _ :: _, [] => false
  | a :: as, b :: bs => jsToLowerChar a = jsToLowerChar b && listStartsWithCI as bs

/-- Leftmost case-insensitive occurrence of a literal pattern: the
suffix right after the match, none when the pattern does not occur
(String.prototype.match scans positions left to right). -/
def searchKey (pat : JSString) : JSString → Option JSString
  | [] => none
  | c :: rest =>
    if listStartsWithCI pat (c :: rest) then some ((c :: rest).drop pat.length)
    else searchKey pat rest

/-- The getValue lookup of the earlier service variant
(src/unnamed/part_002 lines 27-31): match the regex `key:\s*([^,\n]*)`
with flag i against the whole response (keys are plain words, so the
interpolated key acts as a literal).  The greedy `\s*` eats the
whitespace after the colon, the capture group then takes the maximal
run free of commas and newlines — so a value is truncated at its first
comma.  An empty capture is JS-falsy and yields null; otherwise the
capture is trimmed. -/
def getValue (responseText key : JSString) : Option JSString :=
  match searchKey (key ++ str ":") responseText with
  | none => none
  | some afterColon =>
    let captured := (afterColon.dropWhile jsIsWhitespace).takeWhile
      (fun c => !(c = ',' ∨ c = '\n'))
    if captured = [] then none else some (jsTrim captured)

/-- The getNumericValue accessor of the earlier service variant
(src/unnamed/part_002 lines 33-40): getValue, then null on missing or
n/a values, then parseFloat with commas stripped (dead for
comma-containing values, which getValue already truncated). -/
def getNumericValue (responseText key : JSString) : Option ℚ :=
  match getValue responseText key with
  | none => none
  | some value =>
    if value = [] ∨ jsToLower value = str "n/a" then none
    else jsParseFloat (stripCommas value)

/-- One point of a price-history series, from src/types.ts
(TickerPriceHistory: date string, close price). -/
structure TickerPriceHistory where
  date : JSString
  close : ℚ
deriving DecidableEq, Repr

/-- The close-only price-history parser shared by the three fetch
routines (geminiService.ts lines 79-83, 162-166, 218-222): split on
semicolons, take the first two colon-separated tokens of each item as
date and close, keep only items with a truthy date and a parsable
close. -/
def parsePriceHistory (historyStr : JSString) : List TickerPriceHistory :=
  (jsSplitOn (str ";") historyStr).filterMap (fun item =>
    let parts := jsSplitOn (str ":") item
    let date := parts.headD []
    match parts.get? 1 with
    | none => none
    | some closeStr =>
      match jsParseFloat closeStr with
      | none => none
      | some close => if date = [] then none else some { date := date, close := close })

/-- Exchange enum, from src/types.ts. -/
inductive Exchange
| USA
| CANADA
deriving DecidableEq, Repr

/-- Currency enum, from src/types.ts. -/
inductive Currency
| USD
| CAD
deriving DecidableEq, Repr

/-- A stock holding, from src/types.ts (StockAsset).  The TS declaration
types lastPriceUpdate/lastMetricsUpdate as number, but persisted
documents may lack them (checkAndRefreshDetails guards
`!asset.lastMetricsUpdate`), so they are modelled as Option ℤ with JS
falsiness (absent or 0) explicit at the use site. -/
structure StockAsset where
  id : JSString
  accountId : JSString
  ticker : JSString
  name : JSString
  shares : ℚ
  avgCost : ℚ
  exchange : Exchange
  currentPrice : ℚ
  yearlyDividend : Option ℚ
  peRatio : Option ℚ
  forwardPeRatio : Option ℚ
  fiftyTwoWeekLow : Option ℚ
  fiftyTwoWeekHigh : Option ℚ
  companyProfile : JSString
  marketCap : Option JSString
  dividendYield : Option ℚ
  priceHistory : List TickerPriceHistory
  lastPriceUpdate : Option ℤ
  lastMetricsUpdate : Option ℤ
deriving DecidableEq, Repr

/-- A cash holding, from src/types.ts (CashAsset). -/
structure CashAsset where
  id : JSString
  accountId : JSString
  currency : Currency
  amount : ℚ
  name : JSString
deriving DecidableEq, Repr

/-- The Asset tagged union, from src/types.ts (discriminated by the
`type` field there, by the constructor here). -/
inductive Asset
| stock (s : StockAsset)
| cash (c : CashAsset)
deriving DecidableEq, Repr

/-- Derived summary record, from src/types.ts (PortfolioSummaryData). -/
structure PortfolioSummaryData where
  totalMarketValue : ℚ
  totalCost : ℚ
  totalGainLoss : ℚ
  dayGainLoss : ℚ
  overallReturn : ℚ
deriving DecidableEq, Repr

/-- The record returned by a successful full lookup
(fetchFullStockData's return object, geminiService.ts lines 86-99).
The three essential fields are total here because the gate at lines
71-74 has already rejected the null cases. -/
structure FullStockData where
  ticker : JSString
  name : JSString
  currentPrice : ℚ
  yearlyDividend : Option ℚ
  peRatio : Option ℚ
  forwardPeRatio : Option ℚ
  fiftyTwoWeekLow : Option ℚ
  fiftyTwoWeekHigh : Option ℚ
  companyProfile : JSString
  marketCap : Option JSString
  dividendYield : Option ℚ
  priceHistory : List TickerPriceHistory
deriving DecidableEq, Repr

/-- The pure parsing core of fetchFullStockData (geminiService.ts lines
50-99), applied to the oracle's response text.  The api-key guard, the
oracle call itself and the catch-rethrow around it are outside this
model.  JS `!ticker || !name` is explicit: getStr can only return null
or a non-empty string, but the emptiness check is kept faithful. -/
def fetchFullStockDataParse (text : JSString) : Option FullStockData :=
  let data := buildKVMapLower text
  match getStr data (str "ticker"), getStr data (str "name"),
      getNum data (str "currentprice") with
  | some ticker, some name, some currentPrice =>
    if ticker = [] ∨ name = [] then none
    else
      let priceHistory :=
        match getStr data (str "pricehistory") with
        | some historyStr => parsePriceHistory historyStr
        | none => []
      some
        { ticker := jsToUpper ticker
          name := name
          currentPrice := currentPrice
          yearlyDividend := getNum data (str "yearlydividend")
          peRatio := getNum data (str "peratio")
          forwardPeRatio := getNum data (str "forwardperatio")
          fiftyTwoWeekLow := getNum data (str "fiftytwoweeklow")
          fiftyTwoWeekHigh := getNum data (str "fiftytwoweekhigh")
          companyProfile := (getStr data (str "companyprofile")).getD (str "No profile available.")
          marketCap := getStr data (str "marketcap")
          dividendYield := getNum data (str "dividendyield")
          priceHistory := priceHistory }
  | _, _, _ => none

/-- The record returned by fetchStockDetailsForUpdate (geminiService.ts
lines 169-178): metrics only, every field nullable. -/
structure UpdateDetails where
  peRatio : Option ℚ
  forwardPeRatio : Option ℚ
  fiftyTwoWeekLow : Option ℚ
  fiftyTwoWeekHigh : Option ℚ
  marketCap : Option JSString
  dividendYield : Option ℚ
  yearlyDividend : Option ℚ
  priceHistory : List TickerPriceHistory
deriving DecidableEq, Repr

/-- The pure parsing core of fetchStockDetailsForUpdate (geminiService.ts
lines 142-178): no essential-field gate, the record is always built. -/
def fetchStockDetailsForUpdateParse (text : JSString) : UpdateDetails :=
  let data := buildKVMapLower text
  let priceHistory :=
    match getStr data (str "pricehistory") with
    | some historyStr => parsePriceHistory historyStr
    | none => []
  { peRatio := getNum data (str "peratio")
    forwardPeRatio := getNum data (str "forwardperatio")
    fiftyTwoWeekLow := getNum data (str "fiftytwoweeklow")
    fiftyTwoWeekHigh := getNum data (str "fiftytwoweekhigh")
    marketCap := getStr data (str "marketcap")
    dividendYield := getNum data (str "dividendyield")
    yearlyDividend := getNum data (str "yearlydividend")
    priceHistory := priceHistory }

/-- Ticker-page details record, from src/types.ts (TickerDetails). -/
structure TickerDetails where
  name : JSString
  companyProfile : JSString
  marketCap : Option JSString
  peRatio : Option ℚ
  dividendYield : Option ℚ
  fiftyTwoWeekLow : Option ℚ
  fiftyTwoWeekHigh : Option ℚ
  priceHistory : List TickerPriceHistory
  dayChange : Option ℚ
  dayChangePercent : Option ℚ
  currentPrice : ℚ
deriving DecidableEq, Repr

/-- The pure parsing core of fetchTickerDetails (geminiService.ts lines
197-237): keys are looked up case-sensitively, commas are not stripped
before parseFloat, and there is no essential-field gate — missing name
becomes "N/A", missing profile becomes "No profile available.", missing
or unparsable currentPrice becomes 0. -/
def fetchTickerDetailsParse (text : JSString) : TickerDetails :=
  let data := buildKVMap text
  let priceHistory :=
    match getStr data (str "priceHistory") with
    | some historyStr => parsePriceHistory historyStr
    | none => []
  { name := (getStr data (str "name")).getD (str "N/A")
    companyProfile := (getStr data (str "companyProfile")).getD (str "No profile available.")
    marketCap := getStr data (str "marketCap")
    peRatio := tickerGetNum data (str "peRatio")
    dividendYield := tickerGetNum data (str "dividendYield")
    fiftyTwoWeekLow := tickerGetNum data (str "fiftyTwoWeekLow")
    fiftyTwoWeekHigh := tickerGetNum data (str "fiftyTwoWeekHigh")
    priceHistory := priceHistory
    dayChange := tickerGetNum data (str "dayChange")
    dayChangePercent := tickerGetNum data (str "dayChangePercent")
    currentPrice := (tickerGetNum data (str "currentPrice")).getD 0 }

/-- The persisted-document merge performed by refreshAssetDetails
(geminiService.ts lines 367-391): `updateDoc(ref, { ...details,
lastMetricsUpdate: Date.now() })` writes every key of the refresh result
into the stored holding — nulls included — and stamps the metrics
timestamp; all other stored fields are left untouched. -/
def refreshAssetDetailsMerge (a : StockAsset) (details : UpdateDetails) (now : ℤ) : StockAsset :=
  { a with
    peRatio := details.peRatio
    forwardPeRatio := details.forwardPeRatio
    fiftyTwoWeekLow := details.fiftyTwoWeekLow
    fiftyTwoWeekHigh := details.fiftyTwoWeekHigh
    marketCap := details.marketCap
    dividendYield := details.dividendYield
    yearlyDividend := details.yearlyDividend
    priceHistory := details.priceHistory
    lastMetricsUpdate := some now }

/-- The staleness selection of checkAndRefreshDetails (geminiService.ts
lines 393-395): keep the assets whose lastMetricsUpdate is JS-falsy
(absent or 0) or strictly older than 24 hours before `now`. -/
def assetsToUpdate (now : ℤ) (assets : List StockAsset) : List StockAsset :=
  let twentyFourHoursAgo := now - 24 * 60 * 60 * 1000
  assets.filter (fun asset =>
    match asset.lastMetricsUpdate with
    | none => true
    | some t => decide (t = 0) || decide (t < twentyFourHoursAgo))

/-- calculateSummary, from geminiService.ts lines 650-678: accumulates
market value and cost over the asset list (CAD amounts scaled by the
conversion rate, `rate ?? 1`), then derives gain/loss and the overall
return, the latter guarded to 0 when total cost is 0.  dayGainLoss is
initialised to 0 and never updated. -/
def calculateSummary (assets : List Asset) (rate : Option ℚ) : PortfolioSummaryData :=
  let conversionRate := rate.getD 1
  let totals := assets.foldl (fun (acc : ℚ × ℚ) asset =>
    match asset with
    | Asset.stock a =>
      let r := if a.exchange = Exchange.CANADA then conversionRate else 1
      (acc.1 + a.shares * a.currentPrice * r, acc.2 + a.shares * a.avgCost * r)
    | Asset.cash c =>
      let r := if c.currency = Currency.CAD then conversionRate else 1
      (acc.1 + c.amount * r, acc.2 + c.amount * r)) (0, 0)
  { totalMarketValue := totals.1
    totalCost := totals.2
    totalGainLoss := totals.1 - totals.2
    dayGainLoss := 0
    overallReturn := if totals.2 = 0 then 0 else (totals.1 - totals.2) / totals.2 * 100 }

/-- The `portfolio.find` of addCash (geminiService.ts lines 609-613):
first cash asset of the portfolio with the given account and currency. -/
def findCash (portfolio : List Asset) (accountId : JSString) (currency : Currency) : Option CashAsset :=
  portfolio.findSome? (fun a =>
    match a with
    | Asset.cash c =>
      if c.accountId = accountId ∧ c.currency = currency then some c else none
    | Asset.stock _ => none)

/-- All cash records of the portfolio for one (account, currency) pair,
in portfolio order (used to state the cash-merge claims). -/
def cashRecordsFor (portfolio : List Asset) (accountId : JSString) (currency : Currency) : List CashAsset :=
  portfolio.filterMap (fun a =>
    match a with
    | Asset.cash c =>
      if c.accountId = accountId ∧ c.currency = currency then some c else none
    | Asset.stock _ => none)

/-- The display name given to a new cash record (geminiService.ts line
626). -/
def cashName (currency : Currency) : JSString :=
  match currency with
  | Currency.USD => str "US Dollars"
  | Currency.CAD => str "Canadian Dollars"

/-- addCash, from geminiService.ts lines 604-637, as a pure state
transformation of the portfolio list: if a cash record for the
(account, currency) pair exists, updateDoc sets that document's amount
to the old amount plus the deposit (the document is addressed by its
id); otherwise addDoc appends a fresh cash record holding the deposit.
`freshId` stands for the id Firestore generates for the new document. -/
def addCash (portfolio : List Asset) (accountId : JSString) (amount : ℚ)
    (currency : Currency) (freshId : JSString) : List Asset :=
  match findCash portfolio accountId currency with
  | some existing =>
    portfolio.map (fun a =>
      match a with
      | Asset.cash c =>
        if c.id = existing.id then Asset.cash { c with amount := existing.amount + amount }
        else Asset.cash c
      | Asset.stock s => Asset.stock s)
  | none =>
    portfolio ++ [Asset.cash
      { id := freshId
        accountId := accountId
        currency := currency
        amount := amount
        name := cashName currency }]

/-- addAsset, from geminiService.ts lines 543-602, as a pure function of
the portfolio and the (already fetched) full-lookup result: errors when
the lookup returned null or JS-falsy ticker/currentPrice, errors when a
stock with the same (ticker, exchange, accountId) triple already exists,
otherwise appends the new stock holding built from the lookup result.
`freshId` is the Firestore-generated document id and `now` the
Date.now() stamp. -/
def addAsset (portfolio : List Asset) (data : Option FullStockData)
    (shares avgCost : ℚ) (exchange : Exchange) (accountId freshId : JSString)
    (now : ℤ) : Except JSString (List Asset) :=
  match data with
  | none => Except.error (str "Could not fetch data for the query.")
  | some d =>
    if d.ticker = [] ∨ d.currentPrice = 0 then
      Except.error (str "Could not fetch data for the query.")
    else
      let ticker := jsToUpper d.ticker
      match portfolio.find? (fun a =>
        match a with
        | Asset.stock s =>
          decide (s.ticker = ticker ∧ s.exchange = exchange ∧ s.accountId = accountId)
        | Asset.cash _ => false) with
      | some _ =>
        Except.error (str "Asset " ++ ticker ++ str " is already in this account.")
      | none =>
        Except.ok (portfolio ++ [Asset.stock
          { id := freshId
            accountId := accountId
            ticker := ticker
            name := d.name
            shares := shares
            avgCost := avgCost
            exchange := exchange
            currentPrice := d.currentPrice
            yearlyDividend := d.yearlyDividend
            peRatio := d.peRatio
            forwardPeRatio := d.forwardPeRatio
            fiftyTwoWeekLow := d.fiftyTwoWeekLow
            fiftyTwoWeekHigh := d.fiftyTwoWeekHigh
            companyProfile := d.companyProfile
            marketCap := d.marketCap
            dividendYield := d.dividendYield
            priceHistory := d.priceHistory
            lastPriceUpdate := some now
            lastMetricsUpdate := some now }])

/-! ## Theorems about the claims -/

/-- A stored holding with previously known good metrics, used to exhibit
the refresh merge's behaviour on a null refresh result. -/
def storedHoldingWithMetrics : StockAsset :=
  { id := str "doc1"
    accountId := str "acc1"
    ticker := str "AAPL"
    name := str "Apple Inc."
    shares := 10
    avgCost := 100
    exchange := Exchange.USA
    currentPrice := 120
    yearlyDividend := some 1
    peRatio := some 10
    forwardPeRatio := some 9
    fiftyTwoWeekLow := some 80
    fiftyTwoWeekHigh := some 130
    companyProfile := str "Maker of things."
    marketCap := some (str "3T")
    dividendYield := some 1
    priceHistory := []
    lastPriceUpdate := some 1
    lastMetricsUpdate := some 1 }

/-- C1: the refresh merge does NOT preserve previously known values when
the refresh result reports a field as null.  At the failing input — a
holding whose stored peRatio is 10 and a refresh response in which every
metric is the sentinel N/A, so fetchStockDetailsForUpdate returns null
for peRatio — refreshAssetDetails' updateDoc spread overwrites the
stored 10 with null. -/
theorem refreshAssetDetails_overwrites_with_null :
    storedHoldingWithMetrics.peRatio = some 10 ∧
    (fetchStockDetailsForUpdateParse (str "peRatio:::N/A")).peRatio = none ∧
    (refreshAssetDetailsMerge storedHoldingWithMetrics
        (fetchStockDetailsForUpdateParse (str "peRatio:::N/A")) 2000).peRatio = none := by
  refine ⟨rfl, ?_, ?_⟩ <;> decide

/-- C2: the essential-field gate of fetchFullStockData — if, after
parsing, any of ticker, name or currentPrice is null, the whole lookup
returns null, whatever the other fields parsed to. -/
theorem fetchFullStockData_essential_field_gate (text : JSString)
    (h : getStr (buildKVMapLower text) (str "ticker") = none ∨
         getStr (buildKVMapLower text) (str "name") = none ∨
         getNum (buildKVMapLower text) (str "currentprice") = none) :
    fetchFullStockDataParse text = none := by
  simp only [fetchFullStockDataParse]
  split
  · rcases h with h | h | h <;> simp_all
  · rfl

/-- Witness for the essential-field gate: a response carrying name and
price but no ticker parses ticker to null and makes the full lookup
return null. -/
theorem fetchFullStockData_essential_field_gate_witness :
    getStr (buildKVMapLower (str "name:::Apple|||currentprice:::123")) (str "ticker") = none ∧
    fetchFullStockDataParse (str "name:::Apple|||currentprice:::123") = none :=
  ⟨by decide, fetchFullStockData_essential_field_gate _ (Or.inl (by decide))⟩

/-- C5: for every parsed response map and every key, a missing key or a
value equal to the sentinel N/A in any letter case makes the string
accessor and both numeric accessors yield null. -/
theorem accessors_null_on_na_or_missing (m : KVMap) (key : JSString)
    (h : mapGet m key = none ∨
         ∃ v, mapGet m key = some v ∧ jsToLower v = str "n/a") :
    getStr m key = none ∧ getNum m key = none ∧ tickerGetNum m key = none := by
  rcases h with h | ⟨v, hv, hlow⟩
  · simp [getStr, getNum, tickerGetNum, h]
  · simp [getStr, getNum, tickerGetNum, hv, hlow]

/-- Witness for the N/A rule at a concrete map: the key is present with
the mixed-case value n/A and every accessor yields null. -/
theorem accessors_null_on_na_witness :
    getStr [(str "peratio", str "n/A")] (str "peratio") = none ∧
    getNum [(str "peratio", str "n/A")] (str "peratio") = none ∧
    tickerGetNum [(str "peratio", str "n/A")] (str "peratio") = none :=
  accessors_null_on_na_or_missing _ _ (Or.inr ⟨str "n/A", by decide, by decide⟩)

/-- C10: fetchTickerDetails applies no essential-field gate — the parse
always builds a record, substituting N/A for a missing name, a stock
profile placeholder for a missing company profile, and 0 for a missing
or unparsable current price. -/
theorem fetchTickerDetails_no_essential_gate (text : JSString) :
    (getStr (buildKVMap text) (str "name") = none →
        (fetchTickerDetailsParse text).name = str "N/A") ∧
    (getStr (buildKVMap text) (str "companyProfile") = none →
        (fetchTickerDetailsParse text).companyProfile = str "No profile available.") ∧
    (tickerGetNum (buildKVMap text) (str "currentPrice") = none →
        (fetchTickerDetailsParse text).currentPrice = 0) := by
  refine ⟨fun h => ?_, fun h => ?_, fun h => ?_⟩ <;>
    simp [fetchTickerDetailsParse, h]

/-- Witness for the gate-free ticker parse: the empty response still
yields a record, with all three defaults substituted. -/
theorem fetchTickerDetails_no_essential_gate_witness :
    (fetchTickerDetailsParse (str "")).name = str "N/A" ∧
    (fetchTickerDetailsParse (str "")).companyProfile = str "No profile available." ∧
    (fetchTickerDetailsParse (str "")).currentPrice = 0 :=
  ⟨(fetchTickerDetails_no_essential_gate (str "")).1 (by decide),
   (fetchTickerDetails_no_essential_gate (str "")).2.1 (by decide),
   (fetchTickerDetails_no_essential_gate (str "")).2.2 (by decide)⟩

/-- C6 counterexample: fetchTickerDetails' numeric accessor does not
strip thousands separators — parseFloat stops at the comma, so the value
1,234.56 parses to 1, not to 1234.56. -/
theorem tickerGetNum_comma_counterexample :
    tickerGetNum [(str "peRatio", str "1,234.56")] (str "peRatio") = some 1 ∧
    tickerGetNum [(str "peRatio", str "1,234.56")] (str "peRatio") ≠
      some (123456 / 100 : ℚ) := by
  have h1 : mapGet [(str "peRatio", str "1,234.56")] (str "peRatio")
      = some (str "1,234.56") := by decide
  have h2 : parseFloatParts (str "1,234.56")
      = some { negative := false, intVal := 1, fracVal := 0, fracLen := 0, exp := 0 } := by
    decide
  have h3 : tickerGetNum [(str "peRatio", str "1,234.56")] (str "peRatio") = some 1 := by
    simp only [tickerGetNum, h1]
    rw [if_neg (by decide)]
    simp only [jsParseFloat, h2, Option.map_some]
    simp [floatPartsVal]
  refine ⟨h3, ?_⟩
  rw [h3]
  intro h
  rw [Option.some_inj] at h
  norm_num at h

/-- C6 amended: only the comma-stripping delimited-map coercions
(fetchFullStockData's and fetchStockDetailsForUpdate's getNum) parse a
value with thousands separators to the equivalent float.
fetchTickerDetails' getNum yields 1 for 1,234.56 because parseFloat
stops at the comma, and part_002's getNumericValue also yields 1
because getValue's regex capture already truncates the value at its
first comma.  In every routine a value whose numeric scan fails parses
to null, with no exception. -/
theorem numeric_coercion_amended (m : KVMap) (key v t k w : JSString) :
    (mapGet m key = some v → jsParseFloat (stripCommas v) = none →
        getNum m key = none) ∧
    (mapGet m key = some v → jsParseFloat v = none →
        tickerGetNum m key = none) ∧
    (getValue t k = some w → jsParseFloat (stripCommas w) = none →
        getNumericValue t k = none) ∧
    getNum [(str "x", str "1,234.56")] (str "x") = some (123456 / 100) ∧
    tickerGetNum [(str "x", str "1,234.56")] (str "x") = some 1 ∧
    getNumericValue (str "PRICE: 1,234.56") (str "PRICE") = some 1 := by
  have hparts : parseFloatParts (str "1234.56")
      = some { negative := false, intVal := 1234, fracVal := 56, fracLen := 2, exp := 0 } := by
    decide
  have hval : jsParseFloat (str "1234.56") = some (123456 / 100) := by
    simp only [jsParseFloat, hparts, Option.map_some]
    simp [floatPartsVal]
    norm_num
  have hone : jsParseFloat (str "1") = some 1 := by
    have hp : parseFloatParts (str "1")
        = some { negative := false, intVal := 1, fracVal := 0, fracLen := 0, exp := 0 } := by
      decide
    simp only [jsParseFloat, hp, Option.map_some]
    simp [floatPartsVal]
  refine ⟨fun h1 h2 => ?_, fun h1 h2 => ?_, fun h1 h2 => ?_, ?_, ?_, ?_⟩
  · simp only [getNum, h1]
    split
    · rfl
    · exact h2
  · simp only [tickerGetNum, h1]
    split
    · rfl
    · exact h2
  · simp only [getNumericValue, h1]
    split
    · rfl
    · exact h2
  · have h1 : mapGet [(str "x", str "1,234.56")] (str "x") = some (str "1,234.56") := by
      decide
    have hstrip : stripCommas (str "1,234.56") = str "1234.56" := by decide
    simp only [getNum, h1]
    rw [if_neg (by decide), hstrip]
    exact hval
  · have h1 : mapGet [(str "x", str "1,234.56")] (str "x") = some (str "1,234.56") := by
      decide
    have hparts1 : parseFloatParts (str "1,234.56")
        = some { negative := false, intVal := 1, fracVal := 0, fracLen := 0, exp := 0 } := by
      decide
    simp only [tickerGetNum, h1]
    rw [if_neg (by decide)]
    simp only [jsParseFloat, hparts1, Option.map_some]
    simp [floatPartsVal]
  · have h1 : getValue (str "PRICE: 1,234.56") (str "PRICE") = some (str "1") := by
      decide
    have hstrip1 : stripCommas (str "1") = str "1" := by decide
    simp only [getNumericValue, h1]
    rw [if_neg (by decide), hstrip1]
    exact hone

/-- Witness for the amended numeric-coercion claim: the non-numeric
value abc parses to null in all three accessors, including part_002's
getValue-based one. -/
theorem numeric_coercion_amended_witness :
    getNum [(str "x", str "abc")] (str "x") = none ∧
    tickerGetNum [(str "x", str "abc")] (str "x") = none ∧
    getNumericValue (str "PRICE: abc") (str "PRICE") = none :=
  ⟨(numeric_coercion_amended [(str "x", str "abc")] (str "x") (str "abc")
      (str "PRICE: abc") (str "PRICE") (str "abc")).1 (by decide) (by decide),
   (numeric_coercion_amended [(str "x", str "abc")] (str "x") (str "abc")
      (str "PRICE: abc") (str "PRICE") (str "abc")).2.1 (by decide) (by decide),
   (numeric_coercion_amended [(str "x", str "abc")] (str "x") (str "abc")
      (str "PRICE: abc") (str "PRICE") (str "abc")).2.2.1 (by decide) (by decide)⟩

/-- C7: on portfolio load, a stock holding is selected for the metrics
refresh sweep iff its last-metrics timestamp is absent or more than 24
hours (86400000 ms) older than the current time; for holdings stamped
(never, 23 hours ago, 25 hours ago) exactly the first and third are
selected, in order.  The hypothesis 86400000 < now says the clock reads
later than one day after the epoch, as any real Date.now() does. -/
theorem checkAndRefreshDetails_staleness (now : ℤ) (assets : List StockAsset)
    (hnow : 86400000 < now) :
    (∀ a ∈ assets,
        (a ∈ assetsToUpdate now assets ↔
          a.lastMetricsUpdate = none ∨
            ∃ t, a.lastMetricsUpdate = some t ∧ t < now - 86400000)) ∧
    (∀ a₁ a₂ a₃ : StockAsset,
        a₁.lastMetricsUpdate = none →
        a₂.lastMetricsUpdate = some (now - 82800000) →
        a₃.lastMetricsUpdate = some (now - 90000000) →
        assetsToUpdate now [a₁, a₂, a₃] = [a₁, a₃]) := by
  constructor
  · intro a ha
    simp only [assetsToUpdate, List.mem_filter, ha, true_and]
    cases hm : a.lastMetricsUpdate with
    | none => simp
    | some t =>
      simp only [Bool.or_eq_true, decide_eq_true_eq]
      constructor
      · rintro (h | h)
        · exact Or.inr ⟨t, rfl, by omega⟩
        · exact Or.inr ⟨t, rfl, by omega⟩
      · rintro (h | ⟨t', ht', hlt⟩)
        · exact absurd h (by simp)
        · rw [Option.some_inj] at ht'
          subst ht'
          right
          omega
  · intro a₁ a₂ a₃ h1 h2 h3
    have k2a : ¬(now - 82800000 = 0) := by omega
    have k2b : ¬(now - 82800000 < now - 24 * 60 * 60 * 1000) := by omega
    have k3 : now - 90000000 < now - 24 * 60 * 60 * 1000 := by omega
    simp [assetsToUpdate, List.filter, h1, h2, h3, k2a, k2b, k3]

/-- A minimal stock holding carrying a given last-metrics timestamp,
used to instantiate the staleness theorem. -/
def holdingStamped (lmu : Option ℤ) : StockAsset :=
  { id := str "s"
    accountId := str "a"
    ticker := str "TCK"
    name := str "Name"
    shares := 1
    avgCost := 1
    exchange := Exchange.USA
    currentPrice := 1
    yearlyDividend := none
    peRatio := none
    forwardPeRatio := none
    fiftyTwoWeekLow := none
    fiftyTwoWeekHigh := none
    companyProfile := str "p"
    marketCap := none
    dividendYield := none
    priceHistory := []
    lastPriceUpdate := none
    lastMetricsUpdate := lmu }

/-- Witness for the staleness sweep at a concrete clock: with now =
200000000 ms, the holdings stamped (never, 23h ago = 117200000,
25h ago = 110000000) select exactly the first and third. -/
theorem checkAndRefreshDetails_staleness_witness :
    assetsToUpdate 200000000
        [holdingStamped none, holdingStamped (some 117200000),
         holdingStamped (some 110000000)]
      = [holdingStamped none, holdingStamped (some 110000000)] :=
  (checkAndRefreshDetails_staleness 200000000
      [holdingStamped none, holdingStamped (some 117200000),
       holdingStamped (some 110000000)] (by norm_num)).2
    (holdingStamped none) (holdingStamped (some 117200000))
    (holdingStamped (some 110000000)) rfl (by norm_num [holdingStamped])
    (by norm_num [holdingStamped])

/-- The concrete USA stock holding of testable property 5 of the spec:
10 shares, average cost 100, current price 120. -/
def usaStockExample : StockAsset :=
  { id := str "s1"
    accountId := str "acc1"
    ticker := str "AAA"
    name := str "Example Corp"
    shares := 10
    avgCost := 100
    exchange := Exchange.USA
    currentPrice := 120
    yearlyDividend := none
    peRatio := none
    forwardPeRatio := none
    fiftyTwoWeekLow := none
    fiftyTwoWeekHigh := none
    companyProfile := str "No profile available."
    marketCap := none
    dividendYield := none
    priceHistory := []
    lastPriceUpdate := none
    lastMetricsUpdate := none }

/-- The concrete CAD cash balance of testable property 5 of the spec. -/
def cadCashExample : CashAsset :=
  { id := str "c1"
    accountId := str "acc1"
    currency := Currency.CAD
    amount := 50
    name := str "Canadian Dollars" }

/-- C3: for one USA stock (10 shares, cost 100, price 120) and one CAD
cash balance of 50 at conversion rate 0.75, calculateSummary returns
total market value 1237.5, total cost 1037.5, gain/loss 200 and overall
return 200/1037.5*100 = 1600/83 (about 19.28 percent). -/
theorem calculateSummary_concrete_example :
    calculateSummary [Asset.stock usaStockExample, Asset.cash cadCashExample]
      (some (3/4)) =
      { totalMarketValue := 2475/2
        totalCost := 2075/2
        totalGainLoss := 200
        dayGainLoss := 0
        overallReturn := 1600/83 } := by
  have hx : Exchange.USA ≠ Exchange.CANADA := fun h => Exchange.noConfusion h
  simp only [calculateSummary, usaStockExample, cadCashExample, List.foldl, Option.getD]
  simp only [if_neg hx]
  norm_num [PortfolioSummaryData.mk.injEq]

/-- C4: whenever the computed total cost is 0, the overall return is
exactly 0 — the division by total cost in calculateSummary is guarded. -/
theorem calculateSummary_zero_cost_guard (assets : List Asset) (rate : Option ℚ)
    (h : (calculateSummary assets rate).totalCost = 0) :
    (calculateSummary assets rate).overallReturn = 0 := by
  simp only [calculateSummary] at h ⊢
  rw [if_pos h]

/-- Witness for the zero-cost guard at a concrete input: the empty asset
list has total cost 0 and overall return 0. -/
theorem calculateSummary_zero_cost_guard_witness :
    (calculateSummary [] none).totalCost = 0 ∧
      (calculateSummary [] none).overallReturn = 0 :=
  ⟨by decide, calculateSummary_zero_cost_guard [] none (by decide)⟩

/-- JS Array.prototype.find, as findSome?, returns the head of the
filterMap of the same selector. -/
theorem findSome?_eq_head?_filterMap {α β : Type} (f : α → Option β) (l : List α) :
    l.findSome? f = (l.filterMap f).head? := by
  induction l with
  | nil => rfl
  | cons a t ih =>
    rw [List.findSome?_cons, List.filterMap_cons]
    cases h : f a with
    | none => exact ih
    | some b => rfl

/-- findCash is the first element of cashRecordsFor. -/
theorem findCash_eq_head (P : List Asset) (accountId : JSString) (currency : Currency) :
    findCash P accountId currency = (cashRecordsFor P accountId currency).head? :=
  findSome?_eq_head?_filterMap _ _

/-- Updating the amount of the cash documents with a given id commutes
with selecting the cash records of a pair: amounts change, membership
does not. -/
theorem cashRecordsFor_map_amount (P : List Asset) (accountId : JSString)
    (currency : Currency) (tid : JSString) (newAmt : ℚ) :
    cashRecordsFor (P.map (fun a =>
        match a with
        | Asset.cash c =>
          if c.id = tid then Asset.cash { c with amount := newAmt }
          else Asset.cash c
        | Asset.stock s => Asset.stock s)) accountId currency
      = (cashRecordsFor P accountId currency).map
          (fun c => if c.id = tid then { c with amount := newAmt } else c) := by
  induction P with
  | nil => rfl
  | cons a t ih =>
    cases a with
    | stock s => simpa [cashRecordsFor, List.filterMap_cons] using ih
    | cash c =>
      by_cases hid : c.id = tid <;>
        by_cases hmatch : c.accountId = accountId ∧ c.currency = currency <;>
          simpa [cashRecordsFor, List.filterMap_cons, hid, hmatch] using ih

/-- C8: addCash merges into the existing cash record of the (account,
currency) pair when one exists — its amount grows by the deposit, no
record is added — and otherwise appends exactly one new cash record
holding the deposit. -/
theorem addCash_merges_or_creates (P : List Asset) (accountId : JSString)
    (amount : ℚ) (currency : Currency) (freshId : JSString) (old : CashAsset) :
    (cashRecordsFor P accountId currency = [old] →
      cashRecordsFor (addCash P accountId amount currency freshId) accountId currency
          = [{ old with amount := old.amount + amount }] ∧
        (addCash P accountId amount currency freshId).length = P.length) ∧
    (cashRecordsFor P accountId currency = [] →
      cashRecordsFor (addCash P accountId amount currency freshId) accountId currency
          = [{ id := freshId, accountId := accountId, currency := currency,
               amount := amount, name := cashName currency }] ∧
        (addCash P accountId amount currency freshId).length = P.length + 1) := by
  constructor
  · intro h
    have hf : findCash P accountId currency = some old := by
      rw [findCash_eq_head, h]; rfl
    constructor
    · rw [addCash, hf, cashRecordsFor_map_amount, h]
      simp
    · rw [addCash, hf]
      exact List.length_map _ _
  · intro h
    have hf : findCash P accountId currency = none := by
      rw [findCash_eq_head, h]; rfl
    constructor
    · rw [addCash, hf, cashRecordsFor, List.filterMap_append]
      rw [cashRecordsFor] at h
      rw [h]
      simp [List.filterMap_cons]
    · rw [addCash, hf]
      simp

/-- The portfolio of testable property 9 of the spec: one account
already holding 50 USD cash. -/
def portfolioWithUsdCash : List Asset :=
  [Asset.cash
    { id := str "c1"
      accountId := str "acc"
      currency := Currency.USD
      amount := 50
      name := str "US Dollars" }]

/-- Witness for the cash merge: depositing 100 USD into an account
holding 50 USD leaves one record of 150 USD and no extra document;
depositing into an account with no USD cash creates exactly one record
of 100 USD. -/
theorem addCash_merges_or_creates_witness :
    (cashRecordsFor (addCash portfolioWithUsdCash (str "acc") 100 Currency.USD (str "f1"))
          (str "acc") Currency.USD
        = [{ id := str "c1", accountId := str "acc", currency := Currency.USD,
             amount := 50 + 100, name := str "US Dollars" }] ∧
      (addCash portfolioWithUsdCash (str "acc") 100 Currency.USD (str "f1")).length
        = portfolioWithUsdCash.length) ∧
    (cashRecordsFor (addCash [] (str "acc") 100 Currency.USD (str "f1"))
          (str "acc") Currency.USD
        = [{ id := str "f1", accountId := str "acc", currency := Currency.USD,
             amount := 100, name := cashName Currency.USD }] ∧
      (addCash [] (str "acc") 100 Currency.USD (str "f1")).length
        = ([] : List Asset).length + 1) :=
  ⟨(addCash_merges_or_creates portfolioWithUsdCash (str "acc") 100 Currency.USD (str "f1")
      { id := str "c1", accountId := str "acc", currency := Currency.USD,
        amount := 50, name := str "US Dollars" }).1 (by decide),
   (addCash_merges_or_creates [] (str "acc") 100 Currency.USD (str "f1")
      { id := str "c1", accountId := str "acc", currency := Currency.USD,
        amount := 50, name := str "US Dollars" }).2 rfl⟩

/-- C9: adding an asset whose looked-up ticker (upper-cased), exchange
and target account match an existing stock holding is rejected with an
error — no ok result, hence no second record with that triple. -/
theorem addAsset_rejects_duplicate (P : List Asset) (d : FullStockData)
    (shares avgCost : ℚ) (exchange : Exchange) (accountId freshId : JSString)
    (now : ℤ)
    (h : ∃ s : StockAsset, Asset.stock s ∈ P ∧ s.ticker = jsToUpper d.ticker ∧
         s.exchange = exchange ∧ s.accountId = accountId) :
    ∃ msg, addAsset P (some d) shares avgCost exchange accountId freshId now
      = Except.error msg := by
  simp only [addAsset]
  by_cases hgate : d.ticker = [] ∨ d.currentPrice = 0
  · rw [if_pos hgate]
    exact ⟨_, rfl⟩
  · rw [if_neg hgate]
    split
    · exact ⟨_, rfl⟩
    · next hfind =>
      exfalso
      obtain ⟨s, hmem, ht, he, ha⟩ := h
      have h2 := List.find?_eq_none.mp hfind (Asset.stock s) hmem
      simp only [decide_eq_true_eq] at h2
      exact h2 ⟨ht, he, ha⟩

/-- An existing AAPL holding on the USA exchange in account acc. -/
def existingAaplHolding : StockAsset :=
  { id := str "doc9"
    accountId := str "acc"
    ticker := str "AAPL"
    name := str "Apple Inc."
    shares := 2
    avgCost := 90
    exchange := Exchange.USA
    currentPrice := 120
    yearlyDividend := none
    peRatio := none
    forwardPeRatio := none
    fiftyTwoWeekLow := none
    fiftyTwoWeekHigh := none
    companyProfile := str "p"
    marketCap := none
    dividendYield := none
    priceHistory := []
    lastPriceUpdate := none
    lastMetricsUpdate := none }

/-- A full-lookup result that resolves to the same AAPL holding. -/
def duplicateLookupData : FullStockData :=
  { ticker := str "aapl"
    name := str "Apple Inc."
    currentPrice := 121
    yearlyDividend := none
    peRatio := none
    forwardPeRatio := none
    fiftyTwoWeekLow := none
    fiftyTwoWeekHigh := none
    companyProfile := str "p"
    marketCap := none
    dividendYield := none
    priceHistory := [] }

/-- Witness for duplicate rejection: adding aapl (upper-casing to AAPL)
to the account that already holds AAPL on the USA exchange errors. -/
theorem addAsset_rejects_duplicate_witness :
    ∃ msg, addAsset [Asset.stock existingAaplHolding] (some duplicateLookupData)
        3 100 Exchange.USA (str "acc") (str "f9") 5000 = Except.error msg :=
  addAsset_rejects_duplicate [Asset.stock existingAaplHolding] duplicateLookupData
    3 100 Exchange.USA (str "acc") (str "f9") 5000
    ⟨existingAaplHolding, List.mem_singleton.mpr rfl, by decide, rfl, rfl⟩

end PortfolioTracker
